import Mathlib

/-!
Verification of the url_shortner core (cmd/api/handlers.go) against its
natural-language specification.

The handlers in `cmd/api/handlers.go` are embedded shallowly below.  The
`data` package (the URL record type, the store models, the code generator
and the anonymous sentinel) is not part of the given sources; those parts
are modelled from the spec (its §3 data model and §6 external interfaces)
and each such definition says so in its doc comment.

Conventions:
- Go `time.Time` values are modelled as `Int` nanosecond counts
  (`t.Add(d)` is `t + d`, `a.Before(b)` is `a < b`).
- The random code generator is modelled as a stream `gen : Nat → String`
  of candidate codes: `data.NewURL` with an empty requested code consumes
  `gen 0`, and each `Reshorten` consumes the next index.
- The database row id assigned at insertion is passed in as `newId`.
-/

namespace UrlShortner

/-- `http.StatusPermanentRedirect` (308). -/
def statusPermanentRedirect : Nat := 308

/-- `http.StatusTemporaryRedirect` (307). -/
def statusTemporaryRedirect : Nat := 307

/-- Modelled from the spec (§3, URL mapping record; `data.URL` lives outside
the given sources): id, long form, short code, redirect kind (an HTTP status
code), owner id and timestamps. -/
structure URL where
  id : Nat
  longForm : String
  shortCode : String
  redirect : Nat
  userID : Int
  created : Int
  modified : Int
deriving Repr, DecidableEq

/-- The decoded JSON body of a shorten request (`inputURL` in handlers.go):
`long`, `short`, `redirect`, plus the `UserID` filled in from the
authenticated principal. -/
structure InputURL where
  longURL : String
  shortURL : String
  redirect : String
  userID : Int
deriving Repr, DecidableEq

/-- Modelled from the spec (§3, §4.4; `data.AnonymousUser` lives outside the
given sources): the id of the sentinel anonymous principal. -/
def anonymousUserID : Int := 0

/-- The error values an Insert on the URL store can produce:
`data.ErrDuplicateEntry` (unique-constraint violation on the short code) or
any other store error (tagged with an opaque code so that distinct
infrastructure failures stay distinct). -/
inductive InsertErr
  | duplicateEntry
  | otherError (code : Nat)
deriving Repr, DecidableEq

/-- Modelled from the spec (§4.1; `url.Reshorten` lives outside the given
sources): replace the record's short code with a fresh generated candidate. -/
def reshorten (u : URL) (newCode : String) : URL := { u with shortCode := newCode }

/-- Outcome of the bounded insert-retry loop shared by both shorten
handlers. -/
inductive LoopResult
  | created (u : URL)
  | serverError (e : Nat)
  | maxCollision
deriving Repr, DecidableEq

/-- The state after running the insert-retry loop: its outcome, the store it
left behind, and the trace of short codes passed to `Insert`, in order (the
trace is instrumentation used to state how many insert attempts happened). -/
structure LoopOut (σ : Type) where
  result : LoopResult
  store : σ
  attempts : List String
deriving Repr

/-- The insert-retry loop of `AuthenticatedShortenURLHandler` /
`AnonymousShortenURLHandler` (handlers.go lines 378-393 and 425-440),
generic in the store `σ` and its `Insert`:
`for retriesLeft := maxTries; retriesLeft > 0; retriesLeft--` around
`Insert(url)`; success breaks out, `ErrDuplicateEntry` reshortens and
retries, any other error returns a server error at once; a loop that runs
out of retries reports the collision budget as exhausted
(`data.ErrMaxCollision`). -/
def insertLoop {σ : Type} (ins : σ → URL → Except InsertErr σ) (gen : Nat → String)
    (s : σ) (u : URL) (genIdx : Nat) : Nat → LoopOut σ
  | 0 => ⟨.maxCollision, s, []⟩
  | retriesLeft + 1 =>
    match ins s u with
    | .ok s' => ⟨.created u, s', [u.shortCode]⟩
    | .error .duplicateEntry =>
      let out := insertLoop ins gen s (reshorten u (gen genIdx)) (genIdx + 1) retriesLeft
      ⟨out.result, out.store, u.shortCode :: out.attempts⟩
    | .error (.otherError e) => ⟨.serverError e, s, [u.shortCode]⟩

/-- The URL record store, modelled from the spec (§6) as the list of live
records. -/
abbrev Store := List URL

/-- Does some record in the store already carry this short code? -/
def hasCode (s : Store) (code : String) : Bool :=
  s.any (fun v => v.shortCode == code)

/-- Modelled from the spec (§6, store contract; the store implementation
lives outside the given sources): `Insert(record)` succeeds unless the
uniqueness constraint on `short_code` is violated, in which case it reports
`ErrDuplicateEntry`. -/
def insertStore (s : Store) (u : URL) : Except InsertErr Store :=
  if hasCode s u.shortCode then .error .duplicateEntry else .ok (u :: s)

/-- The dedup key predicate: same long form, same redirect kind, same
owner. -/
def matchesKey (long : String) (rt : Nat) (uid : Int) (v : URL) : Bool :=
  v.longForm == long && v.redirect == rt && v.userID == uid

/-- Modelled from the spec (§6): `GetByLongURL(longForm, kind, ownerId)`,
point lookup by the dedup tuple; `none` stands for `ErrRecordNotFound`. -/
def getByLongURL (s : Store) (long : String) (rt : Nat) (uid : Int) : Option URL :=
  s.find? (matchesKey long rt uid)

/-- Modelled from the spec (§6): `GetByShort(code)`, point lookup by short
code; `none` stands for `ErrRecordNotFound`. -/
def getByShort (s : Store) (code : String) : Option URL :=
  s.find? (fun v => v.shortCode == code)

/-- Modelled from the spec (§6): `Update(record)` replaces the stored record
with the same id. -/
def updateStore (s : Store) (u : URL) : Store :=
  s.map (fun v => if v.id == u.id then u else v)

/-- Modelled from the spec (§6): `DeleteByShort(code)` removes every record
carrying the code. -/
def deleteByShort (s : Store) (code : String) : Store :=
  s.filter (fun v => v.shortCode != code)

/-- Modelled from the spec (§4.1; `data.NewURL` lives outside the given
sources): build a fresh record; when the requested short code is empty the
generator supplies the first candidate (`gen 0`) and the next generator
index is 1, otherwise the supplied code is used untouched and no candidate
is consumed.  Returns the record together with the next generator index. -/
def NewURL (long short : String) (rt : Nat) (uid : Int) (newId : Nat) (now : Int)
    (gen : Nat → String) : URL × Nat :=
  if short = "" then
    ({ id := newId, longForm := long, shortCode := gen 0, redirect := rt,
       userID := uid, created := now, modified := now }, 1)
  else
    ({ id := newId, longForm := long, shortCode := short, redirect := rt,
       userID := uid, created := now, modified := now }, 0)

/-- handlers.go lines 345-347: the requested redirect kind defaults to
permanent; only the literal string "temporary" selects a temporary
redirect. -/
def redirectTypeOf (r : String) : Nat :=
  if r = "temporary" then statusTemporaryRedirect else statusPermanentRedirect

/-- What a shorten handler reports: 200 with a reused record, 201 with a
freshly created record, a surfaced store error, or the exhausted collision
budget (`data.ErrMaxCollision`, surfaced as a server error). -/
inductive CreateResult
  | reused (u : URL)
  | created (u : URL)
  | serverError (e : Nat)
  | maxCollision
deriving Repr, DecidableEq

/-- A shorten handler's visible effect: its response, the store it left
behind, and the trace of codes passed to `Insert`. -/
structure CreateOut where
  result : CreateResult
  store : Store
  attempts : List String
deriving Repr, DecidableEq

/-- The insertion phase shared by the branches of
`AuthenticatedShortenURLHandler` (handlers.go lines 369-400): one insert
attempt for a caller-supplied code, three otherwise, then the retry loop. -/
def authenticatedInsertPhase (s : Store) (input : InputURL) (rt : Nat) (now : Int)
    (gen : Nat → String) (newId : Nat) : CreateOut :=
  let maxTries := if input.shortURL ≠ "" then 1 else 3
  let p := NewURL input.longURL input.shortURL rt input.userID newId now gen
  let out := insertLoop insertStore gen s p.1 p.2 maxTries
  match out.result with
  | .created u => ⟨.created u, out.store, out.attempts⟩
  | .serverError e => ⟨.serverError e, out.store, out.attempts⟩
  | .maxCollision => ⟨.maxCollision, out.store, out.attempts⟩

/-- `AuthenticatedShortenURLHandler` (handlers.go lines 341-401): compute
the redirect kind from the request, and when no custom code was supplied
try the dedup lookup keyed by (long, kind, owner); a hit whose kind matches
the request (or an unconstrained request) is reused with `modified`
refreshed; otherwise fall through to the insertion phase. -/
def authenticatedShorten (s : Store) (input : InputURL) (now : Int)
    (gen : Nat → String) (newId : Nat) : CreateOut :=
  let rt := redirectTypeOf input.redirect
  if input.shortURL = "" then
    match getByLongURL s input.longURL rt input.userID with
    | some existingURL =>
      if rt == existingURL.redirect || input.redirect == "" then
        let refreshed := { existingURL with modified := now }
        ⟨.reused refreshed, updateStore s refreshed, []⟩
      else
        authenticatedInsertPhase s input rt now gen newId
    | none => authenticatedInsertPhase s input rt now gen newId
  else
    authenticatedInsertPhase s input rt now gen newId

/-- `AnonymousShortenURLHandler` (handlers.go lines 403-448): the dedup
lookup is always keyed to the permanent kind, a hit is reused
unconditionally with `modified` refreshed, and a fresh record is always
built with an empty requested code (the input's short code is never passed
on) and the permanent kind, with three insert attempts. -/
def anonymousShorten (s : Store) (input : InputURL) (now : Int)
    (gen : Nat → String) (newId : Nat) : CreateOut :=
  match getByLongURL s input.longURL statusPermanentRedirect input.userID with
  | some existingURL =>
    let refreshed := { existingURL with modified := now }
    ⟨.reused refreshed, updateStore s refreshed, []⟩
  | none =>
    let p := NewURL input.longURL "" statusPermanentRedirect input.userID newId now gen
    let out := insertLoop insertStore gen s p.1 p.2 3
    match out.result with
    | .created u => ⟨.created u, out.store, out.attempts⟩
    | .serverError e => ⟨.serverError e, out.store, out.attempts⟩
    | .maxCollision => ⟨.maxCollision, out.store, out.attempts⟩

/-- `CreateShortURLHandler` (handlers.go lines 301-339), after validation:
stamp the caller's id into the input and dispatch on whether the principal
is the anonymous sentinel. -/
def createShortURL (s : Store) (input : InputURL) (uid : Int) (now : Int)
    (gen : Nat → String) (newId : Nat) : CreateOut :=
  let stamped := { input with userID := uid }
  if uid = anonymousUserID then anonymousShorten s stamped now gen newId
  else authenticatedShorten s stamped now gen newId

/-- The redirect kind a creation request is effectively stored under and
dedup-keyed with: the anonymous path forces the permanent kind, the
authenticated path honours the request. -/
def effectiveKind (uid : Int) (redirect : String) : Nat :=
  if uid = anonymousUserID then statusPermanentRedirect else redirectTypeOf redirect

/-- An analytics entry (`data.AnalyticsEntry`, modelled from the spec §3):
request metadata plus the id of the resolved mapping. -/
structure AnalyticsEntry where
  ip : String
  userAgent : String
  referrer : String
  timestamp : Int
  urlID : Nat
deriving Repr, DecidableEq

/-- The request metadata the expand handler copies into an analytics
entry. -/
structure RequestInfo where
  remoteAddr : String
  userAgent : String
  referrer : String
deriving Repr, DecidableEq

/-- What `ExpandURLHandler` reports: 404, a surfaced store error, the
expired-link response, or a redirect to the long form with the record's
redirect status code. -/
inductive ExpandResult
  | notFound
  | serverError (e : Nat)
  | expired
  | redirect (longURL : String) (statusCode : Nat)
deriving Repr, DecidableEq

/-- `6 * time.Hour` in nanoseconds (handlers.go line 548). -/
def fixedTTL : Int := 6 * 3600 * 1000000000

/-- `ExpandURLHandler` (handlers.go lines 526-570): look the code up (miss →
404), an empty stored long form is also a 404, a record whose
`modified + 6h` lies strictly before now is expired, and otherwise the
redirect is issued after recording an analytics entry — but only for
non-anonymous owners, and a failing analytics insert (`analyticsInsertFails`)
is only logged, never surfaced.  Returns the response together with the
analytics store left behind. -/
def expandURL (s : Store) (analytics : List AnalyticsEntry) (shortURL : String)
    (now : Int) (req : RequestInfo) (analyticsInsertFails : Bool) :
    ExpandResult × List AnalyticsEntry :=
  match getByShort s shortURL with
  | none => (.notFound, analytics)
  | some url =>
    if url.longForm = "" then (.notFound, analytics)
    else
      let expiryTime := url.modified + fixedTTL
      if expiryTime < now then (.expired, analytics)
      else
        let analytics' :=
          if url.userID ≠ anonymousUserID then
            let entry : AnalyticsEntry :=
              { ip := req.remoteAddr, userAgent := req.userAgent,
                referrer := req.referrer, timestamp := now, urlID := url.id }
            if analyticsInsertFails then analytics else entry :: analytics
          else analytics
        (.redirect url.longForm url.redirect, analytics')

/-- `DeleteShortURLHandler` (handlers.go lines 504-517): delete the record
by its short code, then cascade-delete the analytics entries referencing its
id (`Analytics.DeleteByURLID`, modelled from the spec §6). -/
def deleteShortURL (s : Store) (analytics : List AnalyticsEntry) (url : URL) :
    Store × List AnalyticsEntry :=
  (deleteByShort s url.shortCode, analytics.filter (fun e => e.urlID != url.id))

/-- The sequence of candidate codes the retry loop feeds to `Insert`:
candidate 0 is the record's current code, and candidate `i + 1` is the
generator's output at index `genIdx + i`. -/
def codeAt (gen : Nat → String) (first : String) (genIdx : Nat) : Nat → String
  | 0 => first
  | i + 1 => gen (genIdx + i)

/-- A store whose `Insert` outcomes are prescribed per short code (`none`
standing for success): used to study how the retry loop reacts to each kind
of store error.  On success the "store" accumulates the inserted codes. -/
def oracleIns (res : String → Option InsertErr) :
    List String → URL → Except InsertErr (List String) :=
  fun s u =>
    match res u.shortCode with
    | none => .ok (u.shortCode :: s)
    | some e => .error e

/-- A deterministic candidate stream used to instantiate the theorems at
concrete inputs. -/
def demoGen : Nat → String := fun n => if n == 0 then "cc0000" else "cc1111"

/-- Concrete request metadata for instantiating the resolution theorems. -/
def demoReq : RequestInfo :=
  { remoteAddr := "1.2.3.4", userAgent := "agent", referrer := "ref" }

/-- A creation request carrying a custom code, from user 7. -/
def demoInput : InputURL :=
  { longURL := "https://example.com", shortURL := "abcdef", redirect := "", userID := 7 }

/-- A creation request with no custom code, from user 7. -/
def demoInputNoCode : InputURL :=
  { longURL := "https://example.com", shortURL := "", redirect := "", userID := 7 }

/-- A stored mapping owned by user 7. -/
def demoURL : URL :=
  { id := 9, longForm := "https://example.com", shortCode := "abcdef",
    redirect := 308, userID := 7, created := 0, modified := 0 }

/-- A stored mapping owned by the anonymous sentinel. -/
def demoAnonURL : URL :=
  { id := 9, longForm := "https://example.com", shortCode := "anonab",
    redirect := 308, userID := 0, created := 0, modified := 0 }

/-- A stored mapping whose long form is empty. -/
def demoEmptyURL : URL :=
  { id := 9, longForm := "", shortCode := "emptyc",
    redirect := 308, userID := 7, created := 0, modified := 0 }

/-- A stored mapping occupying the first generated candidate code. -/
def demoCollURL : URL :=
  { id := 1, longForm := "x", shortCode := "cc0000",
    redirect := 308, userID := 3, created := 0, modified := 0 }

/-- A stored mapping that matches `demoInputNoCode`'s dedup key. -/
def demoNoCodeURL : URL :=
  { id := 3, longForm := "https://example.com", shortCode := "cc0000",
    redirect := 308, userID := 7, created := 0, modified := 0 }

/-- `demoNoCodeURL` with its `modified` timestamp refreshed to 9. -/
def demoReused : URL :=
  { id := 3, longForm := "https://example.com", shortCode := "cc0000",
    redirect := 308, userID := 7, created := 0, modified := 9 }

/-- A record whose initial candidate collides, so that the loop reshortens
into the faulting candidate. -/
def demoErrURL : URL :=
  { id := 5, longForm := "https://example.com", shortCode := "s00000",
    redirect := 308, userID := 7, created := 0, modified := 0 }

/-- Prescribed insert outcomes: the initial code collides, the regenerated
candidate hits an infrastructure error. -/
def demoRes : String → Option InsertErr := fun c =>
  if c == "s00000" then some .duplicateEntry
  else if c == "cc1111" then some (.otherError 42)
  else none

/-- An analytics entry referencing mapping 9. -/
def demoEntry : AnalyticsEntry :=
  { ip := "1.2.3.4", userAgent := "agent", referrer := "ref", timestamp := 3, urlID := 9 }

theorem reshorten_self (u : URL) : reshorten u u.shortCode = u := rfl

theorem reshorten_shortCode (u : URL) (c : String) : (reshorten u c).shortCode = c := rfl

theorem reshorten_reshorten (u : URL) (c d : String) :
    reshorten (reshorten u c) d = reshorten u d := rfl

/-- One loop iteration whose insert succeeds. -/
theorem insertLoop_ok_step {σ : Type} {ins : σ → URL → Except InsertErr σ} {s s' : σ}
    {u : URL} (gen : Nat → String) (gIdx n : Nat) (hins : ins s u = .ok s') :
    insertLoop ins gen s u gIdx (n + 1) = ⟨.created u, s', [u.shortCode]⟩ := by
  simp [insertLoop, hins]

/-- One loop iteration whose insert reports a duplicate entry: reshorten and
keep looping on the remaining budget. -/
theorem insertLoop_dup_step {σ : Type} {ins : σ → URL → Except InsertErr σ} {s : σ}
    {u : URL} (gen : Nat → String) (gIdx n : Nat)
    (hins : ins s u = .error .duplicateEntry) :
    insertLoop ins gen s u gIdx (n + 1) =
      ⟨(insertLoop ins gen s (reshorten u (gen gIdx)) (gIdx + 1) n).result,
       (insertLoop ins gen s (reshorten u (gen gIdx)) (gIdx + 1) n).store,
       u.shortCode :: (insertLoop ins gen s (reshorten u (gen gIdx)) (gIdx + 1) n).attempts⟩ := by
  conv_lhs => rw [insertLoop]
  rw [hins]

/-- One loop iteration whose insert fails with any other store error: the
loop aborts at once and surfaces it. -/
theorem insertLoop_err_step {σ : Type} {ins : σ → URL → Except InsertErr σ} {s : σ}
    {u : URL} {e : Nat} (gen : Nat → String) (gIdx n : Nat)
    (hins : ins s u = .error (.otherError e)) :
    insertLoop ins gen s u gIdx (n + 1) = ⟨.serverError e, s, [u.shortCode]⟩ := by
  conv_lhs => rw [insertLoop]
  rw [hins]

theorem codeAt_shift (gen : Nat → String) (first : String) (gIdx i : Nat) :
    codeAt gen (gen gIdx) (gIdx + 1) i = codeAt gen first gIdx (i + 1) := by
  cases i with
  | zero => simp [codeAt]
  | succ j =>
    simp only [codeAt]
    congr 1
    omega

theorem codeAt_gen_zero (gen : Nat → String) (i : Nat) :
    codeAt gen (gen 0) 1 i = gen i := by
  cases i with
  | zero => rfl
  | succ j =>
    simp only [codeAt]
    congr 1
    omega

theorem range_map_codeAt (gen : Nat → String) (first : String) (gIdx m : Nat) :
    (List.range (m + 1)).map (codeAt gen first gIdx) =
      first :: (List.range m).map (codeAt gen (gen gIdx) (gIdx + 1)) := by
  rw [List.range_succ_eq_map, List.map_cons, List.map_map]
  exact congrArg (first :: ·)
    (List.map_congr_left fun i _ => (codeAt_shift gen first gIdx i).symm)

/-- When every candidate the loop will try is already taken, the loop burns
its whole budget, leaves the store untouched, and reports the collision
budget as exhausted after exactly `n` insert attempts. -/
theorem insertLoop_all_collide (gen : Nat → String) :
    ∀ (n : Nat) (s : Store) (u : URL) (gIdx : Nat),
      (∀ i, i < n → hasCode s (codeAt gen u.shortCode gIdx i) = true) →
      insertLoop insertStore gen s u gIdx n =
        ⟨.maxCollision, s, (List.range n).map (codeAt gen u.shortCode gIdx)⟩ := by
  intro n
  induction n with
  | zero => intro s u gIdx _; simp [insertLoop]
  | succ m ih =>
    intro s u gIdx h
    have h0 : hasCode s u.shortCode = true := h 0 (Nat.succ_pos m)
    have hins : insertStore s u = .error .duplicateEntry := by
      simp [insertStore, h0]
    have hrec := ih s (reshorten u (gen gIdx)) (gIdx + 1) ?_
    · rw [insertLoop_dup_step gen gIdx m hins, hrec]
      simp only [reshorten_shortCode, range_map_codeAt]
    · intro i hi
      have := h (i + 1) (Nat.succ_lt_succ hi)
      simpa [reshorten, codeAt_shift gen u.shortCode gIdx i] using this

/-- When the first `n` candidates are taken but the `(n+1)`-th is free, a
loop with any budget of at least `n + 1` succeeds on attempt `n + 1`,
inserting the record carrying that free candidate code. -/
theorem insertLoop_success (gen : Nat → String) :
    ∀ (n : Nat) (s : Store) (u : URL) (gIdx m : Nat),
      (∀ i, i < n → hasCode s (codeAt gen u.shortCode gIdx i) = true) →
      hasCode s (codeAt gen u.shortCode gIdx n) = false →
      insertLoop insertStore gen s u gIdx (m + n + 1) =
        ⟨.created (reshorten u (codeAt gen u.shortCode gIdx n)),
         reshorten u (codeAt gen u.shortCode gIdx n) :: s,
         (List.range (n + 1)).map (codeAt gen u.shortCode gIdx)⟩ := by
  intro n
  induction n with
  | zero =>
    intro s u gIdx m _ hfree
    have hfree' : hasCode s u.shortCode = false := hfree
    have hins : insertStore s u = .ok (u :: s) := by
      simp [insertStore, hfree']
    rw [insertLoop_ok_step gen gIdx (m + 0) hins]
    simp [reshorten_self, codeAt, List.range_succ]
  | succ k ih =>
    intro s u gIdx m h hfree
    have h0 : hasCode s u.shortCode = true := h 0 (Nat.succ_pos k)
    have hins : insertStore s u = .error .duplicateEntry := by
      simp [insertStore, h0]
    have hrec := ih s (reshorten u (gen gIdx)) (gIdx + 1) m ?_ ?_
    · have hb : m + (k + 1) + 1 = (m + k + 1) + 1 := by omega
      rw [hb, insertLoop_dup_step gen gIdx (m + k + 1) hins, hrec]
      simp only [reshorten_shortCode, range_map_codeAt, reshorten_reshorten,
        codeAt_shift gen u.shortCode gIdx k]
    · intro i hi
      have := h (i + 1) (Nat.succ_lt_succ hi)
      simpa [reshorten, codeAt_shift gen u.shortCode gIdx i] using this
    · simpa [reshorten, codeAt_shift gen u.shortCode gIdx k] using hfree

/-- Reshortening only touches the short code, so whatever record the loop
ends up inserting agrees with the initial record on every other field. -/
theorem insertLoop_created_fields {σ : Type} (ins : σ → URL → Except InsertErr σ)
    (gen : Nat → String) :
    ∀ (n : Nat) (s : σ) (u : URL) (gIdx : Nat) (v : URL),
      (insertLoop ins gen s u gIdx n).result = .created v →
      v.longForm = u.longForm ∧ v.redirect = u.redirect ∧ v.userID = u.userID ∧
        v.id = u.id ∧ v.created = u.created ∧ v.modified = u.modified := by
  intro n
  induction n with
  | zero => intro s u gIdx v h; simp [insertLoop] at h
  | succ m ih =>
    intro s u gIdx v h
    cases hins : ins s u with
    | ok s' =>
      rw [insertLoop_ok_step gen gIdx m hins] at h
      simp only [LoopResult.created.injEq] at h
      subst h
      exact ⟨rfl, rfl, rfl, rfl, rfl, rfl⟩
    | error e =>
      cases e with
      | duplicateEntry =>
        rw [insertLoop_dup_step gen gIdx m hins] at h
        simpa [reshorten] using ih s (reshorten u (gen gIdx)) (gIdx + 1) v h
      | otherError e =>
        rw [insertLoop_err_step gen gIdx m hins] at h
        simp at h

/-- A budget-1 loop whose single insert succeeds. -/
theorem insertLoop_one_ok {σ : Type} {ins : σ → URL → Except InsertErr σ} {s s' : σ}
    {u : URL} (gen : Nat → String) (gIdx : Nat) (hins : ins s u = .ok s') :
    insertLoop ins gen s u gIdx 1 = ⟨.created u, s', [u.shortCode]⟩ :=
  insertLoop_ok_step gen gIdx 0 hins

/-- A budget-1 loop whose single insert collides: the budget is exhausted
at once, nothing further is attempted, and the store is untouched. -/
theorem insertLoop_one_dup {σ : Type} {ins : σ → URL → Except InsertErr σ} {s : σ}
    {u : URL} (gen : Nat → String) (gIdx : Nat)
    (hins : ins s u = .error .duplicateEntry) :
    insertLoop ins gen s u gIdx 1 = ⟨.maxCollision, s, [u.shortCode]⟩ := by
  have h := insertLoop_dup_step gen gIdx 0 hins
  simpa [insertLoop] using h

/-- C7: during the creation retry loop, a store error other than a
duplicate-entry violation aborts the loop at once and is surfaced: after
`j` collisions, an `otherError` on attempt `j + 1` ends the loop with that
error even though budget remains, the attempt trace stops at the failing
code (no regeneration, no further insert), and nothing was inserted. -/
theorem other_store_error_aborts (res : String → Option InsertErr)
    (gen : Nat → String) :
    ∀ (j : Nat) (trace : List String) (u : URL) (gIdx m e : Nat),
      (∀ i, i < j → res (codeAt gen u.shortCode gIdx i) = some .duplicateEntry) →
      res (codeAt gen u.shortCode gIdx j) = some (.otherError e) →
      insertLoop (oracleIns res) gen trace u gIdx (m + j + 1) =
        ⟨.serverError e, trace, (List.range (j + 1)).map (codeAt gen u.shortCode gIdx)⟩ := by
  intro j
  induction j with
  | zero =>
    intro trace u gIdx m e _ herr
    have herr' : res u.shortCode = some (.otherError e) := herr
    have hins : oracleIns res trace u = .error (.otherError e) := by
      simp [oracleIns, herr']
    rw [insertLoop_err_step gen gIdx (m + 0) hins]
    simp [codeAt, List.range_succ]
  | succ k ih =>
    intro trace u gIdx m e h herr
    have h0 : res u.shortCode = some .duplicateEntry := h 0 (Nat.succ_pos k)
    have hins : oracleIns res trace u = .error .duplicateEntry := by
      simp [oracleIns, h0]
    have hrec := ih trace (reshorten u (gen gIdx)) (gIdx + 1) m e ?_ ?_
    · have hb : m + (k + 1) + 1 = (m + k + 1) + 1 := by omega
      rw [hb, insertLoop_dup_step gen gIdx (m + k + 1) hins, hrec]
      simp only [reshorten_shortCode, range_map_codeAt]
    · intro i hi
      have := h (i + 1) (Nat.succ_lt_succ hi)
      simpa [reshorten, codeAt_shift gen u.shortCode gIdx i] using this
    · simpa [reshorten, codeAt_shift gen u.shortCode gIdx k] using herr

/-- C2: with no caller-supplied code (so the record starts with candidate
`gen 0`), if the first `k` generated candidates all collide in the store,
the retry loop with budget `k` exhausts the collision budget having
attempted exactly those `k` candidates and leaves the store unchanged,
while with budget `k + 1` it succeeds on the `(k + 1)`-th attempt,
returning and inserting the record carrying candidate `gen k`. -/
theorem createWithRetry_collision_bound (k : Nat) (s : Store) (gen : Nat → String)
    (long : String) (rt : Nat) (uid : Int) (newId : Nat) (now : Int)
    (hcoll : ∀ i, i < k → hasCode s (gen i) = true)
    (hfree : hasCode s (gen k) = false) :
    insertLoop insertStore gen s (NewURL long "" rt uid newId now gen).1
        (NewURL long "" rt uid newId now gen).2 k =
      ⟨.maxCollision, s, (List.range k).map gen⟩ ∧
    insertLoop insertStore gen s (NewURL long "" rt uid newId now gen).1
        (NewURL long "" rt uid newId now gen).2 (k + 1) =
      ⟨.created (reshorten (NewURL long "" rt uid newId now gen).1 (gen k)),
       reshorten (NewURL long "" rt uid newId now gen).1 (gen k) :: s,
       (List.range (k + 1)).map gen⟩ := by
  have hu : NewURL long "" rt uid newId now gen =
      ({ id := newId, longForm := long, shortCode := gen 0, redirect := rt,
         userID := uid, created := now, modified := now }, 1) := by
    simp [NewURL]
  rw [hu]
  have hc : ∀ i, codeAt gen (gen 0) 1 i = gen i := codeAt_gen_zero gen
  constructor
  · have hall := insertLoop_all_collide gen k s
      { id := newId, longForm := long, shortCode := gen 0, redirect := rt,
        userID := uid, created := now, modified := now } 1
      (by intro i hi; simpa [hc i] using hcoll i hi)
    rw [hall]
    exact congrArg (LoopOut.mk .maxCollision s)
      (List.map_congr_left fun i _ => hc i)
  · have hsuc := insertLoop_success gen k s
      { id := newId, longForm := long, shortCode := gen 0, redirect := rt,
        userID := uid, created := now, modified := now } 1 0
      (by intro i hi; simpa [hc i] using hcoll i hi)
      (by simpa [hc k] using hfree)
    rw [show (0 : Nat) + k + 1 = k + 1 by omega] at hsuc
    rw [hsuc]
    simp only [hc]
    exact congrArg (LoopOut.mk _ _) (List.map_congr_left fun i _ => hc i)

/-- The insertion phase of the authenticated handler when a custom code was
supplied: exactly one insert attempt is made, with exactly the supplied
code, and it either creates the record verbatim or exhausts the (single)
budget at once. -/
theorem authenticatedInsertPhase_explicit (s : Store) (input : InputURL) (rt : Nat)
    (now : Int) (gen : Nat → String) (newId : Nat) (hshort : input.shortURL ≠ "") :
    authenticatedInsertPhase s input rt now gen newId =
      if hasCode s input.shortURL = true then
        ⟨.maxCollision, s, [input.shortURL]⟩
      else
        ⟨.created { id := newId, longForm := input.longURL, shortCode := input.shortURL,
                    redirect := rt, userID := input.userID, created := now, modified := now },
         { id := newId, longForm := input.longURL, shortCode := input.shortURL,
           redirect := rt, userID := input.userID, created := now, modified := now } :: s,
         [input.shortURL]⟩ := by
  have hnew : NewURL input.longURL input.shortURL rt input.userID newId now gen =
      ({ id := newId, longForm := input.longURL, shortCode := input.shortURL,
         redirect := rt, userID := input.userID, created := now, modified := now }, 0) := by
    simp [NewURL, hshort]
  by_cases hdup : hasCode s input.shortURL
  · have hins : insertStore s
        { id := newId, longForm := input.longURL, shortCode := input.shortURL,
          redirect := rt, userID := input.userID, created := now, modified := now } =
        .error .duplicateEntry := by
      simp [insertStore, hdup]
    have hloop := insertLoop_one_dup gen 0 hins
    simp [authenticatedInsertPhase, hshort, hnew, hloop, hdup]
  · have hdup' : hasCode s input.shortURL = false := by simpa using hdup
    have hins : insertStore s
        { id := newId, longForm := input.longURL, shortCode := input.shortURL,
          redirect := rt, userID := input.userID, created := now, modified := now } =
        .ok ({ id := newId, longForm := input.longURL, shortCode := input.shortURL,
               redirect := rt, userID := input.userID, created := now, modified := now } :: s) := by
      simp [insertStore, hdup']
    have hloop := insertLoop_one_ok gen 0 hins
    simp [authenticatedInsertPhase, hshort, hnew, hloop, hdup']

/-- C1 (amended): on the authenticated path, a creation request with a
non-empty caller-supplied code uses exactly that code (never silently
replaced), gets an attempt budget of one insert (even though the default
budget is 3), and a uniqueness collision fails the request immediately with
the store unchanged and no regenerated code ever passed to an insert. -/
theorem explicit_code_exclusivity (s : Store) (input : InputURL) (now : Int)
    (gen : Nat → String) (newId : Nat) (hshort : input.shortURL ≠ "") :
    (authenticatedShorten s input now gen newId).attempts = [input.shortURL] ∧
    (hasCode s input.shortURL = true →
      (authenticatedShorten s input now gen newId).result = .maxCollision ∧
      (authenticatedShorten s input now gen newId).store = s) ∧
    (hasCode s input.shortURL = false →
      authenticatedShorten s input now gen newId =
        ⟨.created { id := newId, longForm := input.longURL, shortCode := input.shortURL,
                    redirect := redirectTypeOf input.redirect, userID := input.userID,
                    created := now, modified := now },
         { id := newId, longForm := input.longURL, shortCode := input.shortURL,
           redirect := redirectTypeOf input.redirect, userID := input.userID,
           created := now, modified := now } :: s,
         [input.shortURL]⟩) := by
  have hmain : authenticatedShorten s input now gen newId =
      authenticatedInsertPhase s input (redirectTypeOf input.redirect) now gen newId := by
    simp [authenticatedShorten, hshort]
  rw [hmain,
    authenticatedInsertPhase_explicit s input (redirectTypeOf input.redirect) now gen newId hshort]
  by_cases hdup : hasCode s input.shortURL
  · simp [hdup]
  · have hdup' : hasCode s input.shortURL = false := by simpa using hdup
    simp [hdup']

/-- C1 (counterexample): the claim quantifies over every creation request,
but the anonymous creation path ignores a non-empty caller-supplied code
entirely.  Over an empty store, an anonymous request carrying the (valid)
custom code "abcdef" yields a record whose code is the generated "zzzzzz",
and over a store where the generated candidates collide the same request
makes three insert attempts — so the supplied code is silently replaced and
the attempt budget is not 1. -/
theorem anonymous_ignores_supplied_code_cex :
    ({ longURL := "https://example.com", shortURL := "abcdef", redirect := "",
       userID := 0 } : InputURL).shortURL ≠ "" ∧
    (createShortURL []
        { longURL := "https://example.com", shortURL := "abcdef", redirect := "",
          userID := 0 }
        anonymousUserID 0 (fun _ => "zzzzzz") 1).result =
      .created { id := 1, longForm := "https://example.com", shortCode := "zzzzzz",
                 redirect := 308, userID := 0, created := 0, modified := 0 } ∧
    ("zzzzzz" : String) ≠ "abcdef" ∧
    (createShortURL
        [{ id := 9, longForm := "x", shortCode := "zzzzzz", redirect := 308,
           userID := 3, created := 0, modified := 0 }]
        { longURL := "https://example.com", shortURL := "abcdef", redirect := "",
          userID := 0 }
        anonymousUserID 0 (fun _ => "zzzzzz") 1).attempts =
      ["zzzzzz", "zzzzzz", "zzzzzz"] := by
  refine ⟨by decide, by decide, by decide, by decide⟩

/-- C3: resolving an existing record with a non-empty long form is
`Expired` exactly when the current time is strictly later than the record's
`modified_at` plus the fixed 6-hour TTL; a record whose age is exactly the
TTL still resolves to its redirect, and in the expired case neither a
redirect nor an analytics entry is produced. -/
theorem expiry_boundary (s : Store) (a : List AnalyticsEntry) (code : String)
    (now : Int) (req : RequestInfo) (b : Bool) (u : URL)
    (hget : getByShort s code = some u) (hlong : u.longForm ≠ "") :
    ((expandURL s a code now req b).1 = .expired ↔ u.modified + fixedTTL < now) ∧
    (now = u.modified + fixedTTL →
      (expandURL s a code now req b).1 = .redirect u.longForm u.redirect) ∧
    (u.modified + fixedTTL < now → expandURL s a code now req b = (.expired, a)) := by
  by_cases hexp : u.modified + fixedTTL < now
  · refine ⟨by simp [expandURL, hget, hlong, hexp], ?_, ?_⟩
    · intro hnow
      omega
    · intro _
      simp [expandURL, hget, hlong, hexp]
  · refine ⟨by simp [expandURL, hget, hlong, hexp], ?_, ?_⟩
    · intro _
      simp [expandURL, hget, hlong, hexp]
    · intro h
      exact absurd h hexp

/-- C5: a successful (non-expired) resolution records an analytics entry
referencing the record's id exactly when the owner is not the anonymous
sentinel; anonymous-owned mappings leave the analytics store untouched. -/
theorem anonymous_opacity (s : Store) (a : List AnalyticsEntry) (code : String)
    (now : Int) (req : RequestInfo) (u : URL)
    (hget : getByShort s code = some u) (hlong : u.longForm ≠ "")
    (hlive : ¬ u.modified + fixedTTL < now) :
    expandURL s a code now req false =
      (.redirect u.longForm u.redirect,
       if u.userID ≠ anonymousUserID then
         ({ ip := req.remoteAddr, userAgent := req.userAgent, referrer := req.referrer,
            timestamp := now, urlID := u.id } : AnalyticsEntry) :: a
       else a) := by
  by_cases huid : u.userID = anonymousUserID <;>
    simp [expandURL, hget, hlong, hlive, huid]

/-- C6: whether the analytics insert fails or succeeds never changes the
resolution outcome the caller sees. -/
theorem analytics_failure_invisible (s : Store) (a : List AnalyticsEntry)
    (code : String) (now : Int) (req : RequestInfo) :
    (expandURL s a code now req true).1 = (expandURL s a code now req false).1 := by
  cases hget : getByShort s code with
  | none => simp [expandURL, hget]
  | some u =>
    by_cases hlong : u.longForm = "" <;>
      by_cases hexp : u.modified + fixedTTL < now <;>
        simp [expandURL, hget, hlong, hexp]

/-- C10: a stored record whose long form is the empty string resolves as
`NotFound` (neither a redirect nor `Expired`), and no analytics entry is
recorded. -/
theorem empty_long_form_not_found (s : Store) (a : List AnalyticsEntry)
    (code : String) (now : Int) (req : RequestInfo) (b : Bool) (u : URL)
    (hget : getByShort s code = some u) (hempty : u.longForm = "") :
    expandURL s a code now req b = (.notFound, a) := by
  simp [expandURL, hget, hempty]

/-- C8: deleting a mapping removes every analytics entry referencing its
id, and any later resolution of its short code returns `NotFound`. -/
theorem deletion_cascade (s : Store) (a : List AnalyticsEntry) (url : URL)
    (now : Int) (req : RequestInfo) (b : Bool) :
    (∀ en, en ∈ (deleteShortURL s a url).2 → en.urlID ≠ url.id) ∧
    expandURL (deleteShortURL s a url).1 (deleteShortURL s a url).2 url.shortCode
        now req b =
      (.notFound, (deleteShortURL s a url).2) := by
  constructor
  · intro en hen
    have h := (List.mem_filter.mp hen).2
    simpa using h
  · have hnone : getByShort (deleteByShort s url.shortCode) url.shortCode = none := by
      apply List.find?_eq_none.mpr
      intro v hv
      simp only [deleteByShort, List.mem_filter, bne_iff_ne] at hv
      simpa using hv.2
    simp [deleteShortURL, expandURL, hnone]

/-- A loop with the default budget of 3 whose very first candidate is free
succeeds immediately, inserting the record unchanged. -/
theorem insertLoop_three_free (gen : Nat → String) (s : Store) (u : URL)
    (hfree : hasCode s u.shortCode = false) :
    insertLoop insertStore gen s u 1 3 = ⟨.created u, u :: s, [u.shortCode]⟩ := by
  have h := insertLoop_success gen 0 s u 1 2
    (fun i hi => absurd hi (Nat.not_lt_zero i)) hfree
  simpa [reshorten_self, codeAt, List.range_succ] using h

/-- Updating a record that sits at the head of the store (matched by id)
replaces just that record. -/
theorem updateStore_cons_self (s : Store) (u ref : URL) (hrid : ref.id = u.id)
    (hid : ∀ v ∈ s, v.id ≠ u.id) :
    updateStore (u :: s) ref = ref :: s := by
  unfold updateStore
  rw [List.map_cons]
  have hhead : (if u.id == ref.id then ref else u) = ref := by simp [hrid]
  have h : ∀ v ∈ s, (fun w => if w.id == ref.id then ref else w) v = id v := by
    intro v hv
    have hv' : v.id ≠ ref.id := by rw [hrid]; exact hid v hv
    simp [hv']
  rw [hhead, List.map_congr_left h, List.map_id]

/-- C4: for a fixed owner and redirect kind, two successive creation calls
with the same long form and no explicit code: the first inserts a fresh
record; the second finds and reuses it, so both responses carry the same
short code, the reused record differs only in its refreshed `modified`
timestamp, and exactly one record for that (long form, kind, owner) tuple
exists in the store afterwards. -/
theorem idempotent_reuse (s : Store) (input : InputURL) (uid : Int)
    (now1 now2 : Int) (gen gen2 : Nat → String) (id1 id2 : Nat)
    (hshort : input.shortURL = "")
    (hnodup : getByLongURL s input.longURL (effectiveKind uid input.redirect) uid = none)
    (hfree : hasCode s (gen 0) = false)
    (hid : ∀ v ∈ s, v.id ≠ id1) :
    ∃ u : URL,
      createShortURL s input uid now1 gen id1 = ⟨.created u, u :: s, [u.shortCode]⟩ ∧
      u.shortCode = gen 0 ∧ u.modified = now1 ∧
      createShortURL (u :: s) input uid now2 gen2 id2 =
        ⟨.reused { u with modified := now2 }, { u with modified := now2 } :: s, []⟩ ∧
      (({ u with modified := now2 } :: s).filter
          (matchesKey input.longURL (effectiveKind uid input.redirect) uid)).length = 1 := by
  have htail : s.filter (matchesKey input.longURL (effectiveKind uid input.redirect) uid) = [] := by
    apply List.filter_eq_nil_iff.mpr
    intro v hv
    exact List.find?_eq_none.mp hnodup v hv
  by_cases huid : uid = anonymousUserID
  · subst huid
    have hK : effectiveKind anonymousUserID input.redirect = statusPermanentRedirect := by
      simp [effectiveKind]
    rw [hK] at hnodup htail
    refine ⟨{ id := id1, longForm := input.longURL, shortCode := gen 0,
              redirect := statusPermanentRedirect, userID := anonymousUserID,
              created := now1, modified := now1 }, ?_, rfl, rfl, ?_, ?_⟩
    · have hloop := insertLoop_three_free gen s
        { id := id1, longForm := input.longURL, shortCode := gen 0,
          redirect := statusPermanentRedirect, userID := anonymousUserID,
          created := now1, modified := now1 } hfree
      simp [createShortURL, anonymousShorten, hnodup, NewURL, hloop]
    · have hfind : getByLongURL
          ({ id := id1, longForm := input.longURL, shortCode := gen 0,
             redirect := statusPermanentRedirect, userID := anonymousUserID,
             created := now1, modified := now1 } :: s)
          input.longURL statusPermanentRedirect anonymousUserID =
          some { id := id1, longForm := input.longURL, shortCode := gen 0,
                 redirect := statusPermanentRedirect, userID := anonymousUserID,
                 created := now1, modified := now1 } :=
        List.find?_cons_of_pos _ (by simp [matchesKey])
      have hupd := updateStore_cons_self s
        { id := id1, longForm := input.longURL, shortCode := gen 0,
          redirect := statusPermanentRedirect, userID := anonymousUserID,
          created := now1, modified := now1 }
        { id := id1, longForm := input.longURL, shortCode := gen 0,
          redirect := statusPermanentRedirect, userID := anonymousUserID,
          created := now1, modified := now2 } rfl hid
      simp [createShortURL, anonymousShorten, hfind, hupd]
    · rw [hK, List.filter_cons_of_pos (by simp [matchesKey]), htail]
      rfl
  · have hK : effectiveKind uid input.redirect = redirectTypeOf input.redirect := by
      simp [effectiveKind, huid]
    rw [hK] at hnodup htail
    refine ⟨{ id := id1, longForm := input.longURL, shortCode := gen 0,
              redirect := redirectTypeOf input.redirect, userID := uid,
              created := now1, modified := now1 }, ?_, rfl, rfl, ?_, ?_⟩
    · have hloop := insertLoop_three_free gen s
        { id := id1, longForm := input.longURL, shortCode := gen 0,
          redirect := redirectTypeOf input.redirect, userID := uid,
          created := now1, modified := now1 } hfree
      simp [createShortURL, huid, authenticatedShorten, hshort,
        authenticatedInsertPhase, hnodup, NewURL, hloop]
    · have hfind : getByLongURL
          ({ id := id1, longForm := input.longURL, shortCode := gen 0,
             redirect := redirectTypeOf input.redirect, userID := uid,
             created := now1, modified := now1 } :: s)
          input.longURL (redirectTypeOf input.redirect) uid =
          some { id := id1, longForm := input.longURL, shortCode := gen 0,
                 redirect := redirectTypeOf input.redirect, userID := uid,
                 created := now1, modified := now1 } :=
        List.find?_cons_of_pos _ (by simp [matchesKey])
      have hupd := updateStore_cons_self s
        { id := id1, longForm := input.longURL, shortCode := gen 0,
          redirect := redirectTypeOf input.redirect, userID := uid,
          created := now1, modified := now1 }
        { id := id1, longForm := input.longURL, shortCode := gen 0,
          redirect := redirectTypeOf input.redirect, userID := uid,
          created := now1, modified := now2 } rfl hid
      simp [createShortURL, huid, authenticatedShorten, hshort, hfind, hupd]
    · rw [hK, List.filter_cons_of_pos (by simp [matchesKey]), htail]
      rfl

/-- C9: the anonymous creation path is entirely independent of the
requested redirect kind and of the supplied short code; every record it
creates carries the permanent redirect kind, and every record it reuses was
found by a dedup lookup keyed to the permanent kind. -/
theorem anonymous_always_permanent (s : Store) (input : InputURL) (now : Int)
    (gen : Nat → String) (newId : Nat) (r c : String) :
    anonymousShorten s { input with redirect := r, shortURL := c } now gen newId =
      anonymousShorten s input now gen newId ∧
    (∀ u, (anonymousShorten s input now gen newId).result = .created u →
      u.redirect = statusPermanentRedirect) ∧
    (∀ u, (anonymousShorten s input now gen newId).result = .reused u →
      ∃ e, getByLongURL s input.longURL statusPermanentRedirect input.userID = some e ∧
        u = { e with modified := now }) := by
  refine ⟨rfl, ?_, ?_⟩
  · intro u hu
    cases hlk : getByLongURL s input.longURL statusPermanentRedirect input.userID with
    | some e => simp [anonymousShorten, hlk] at hu
    | none =>
      simp only [anonymousShorten, hlk] at hu
      split at hu
      · rename_i u1 heq
        simp only [CreateOut.mk.injEq] at hu
        obtain ⟨_, hr, _⟩ := insertLoop_created_fields insertStore gen 3 s _ _ u1 heq
        have hu1 : u1 = u := by simpa using hu
        rw [← hu1]
        simpa [NewURL] using hr
      · simp at hu
      · simp at hu
  · intro u hu
    cases hlk : getByLongURL s input.longURL statusPermanentRedirect input.userID with
    | some e =>
      refine ⟨e, rfl, ?_⟩
      simp only [anonymousShorten, hlk] at hu
      simpa using hu.symm
    | none =>
      simp only [anonymousShorten, hlk] at hu
      split at hu <;> simp at hu

/-- Witness for `explicit_code_exclusivity`: over an empty store the custom
code "abcdef" is the only attempted code, and over a store already holding
"abcdef" the request fails at once with the store unchanged. -/
theorem explicit_code_exclusivity_witness :
    (authenticatedShorten [] demoInput 5 demoGen 1).attempts = [demoInput.shortURL] ∧
    ((authenticatedShorten [demoURL] demoInput 5 demoGen 1).result = .maxCollision ∧
     (authenticatedShorten [demoURL] demoInput 5 demoGen 1).store = [demoURL]) :=
  ⟨(explicit_code_exclusivity [] demoInput 5 demoGen 1 (by decide)).1,
   (explicit_code_exclusivity [demoURL] demoInput 5 demoGen 1 (by decide)).2.1 (by decide)⟩

/-- Witness for `createWithRetry_collision_bound` at `k = 1`: one seeded
collision on `cc0000`, so budget 1 exhausts and budget 2 succeeds on the
second attempt with candidate `cc1111`. -/
theorem createWithRetry_collision_bound_witness :
    insertLoop insertStore demoGen [demoCollURL]
        (NewURL "https://e.com" "" 308 7 2 5 demoGen).1
        (NewURL "https://e.com" "" 308 7 2 5 demoGen).2 1 =
      ⟨.maxCollision, [demoCollURL], (List.range 1).map demoGen⟩ ∧
    insertLoop insertStore demoGen [demoCollURL]
        (NewURL "https://e.com" "" 308 7 2 5 demoGen).1
        (NewURL "https://e.com" "" 308 7 2 5 demoGen).2 2 =
      ⟨.created (reshorten (NewURL "https://e.com" "" 308 7 2 5 demoGen).1 (demoGen 1)),
       reshorten (NewURL "https://e.com" "" 308 7 2 5 demoGen).1 (demoGen 1) :: [demoCollURL],
       (List.range 2).map demoGen⟩ :=
  createWithRetry_collision_bound 1 [demoCollURL] demoGen "https://e.com" 308 7 2 5
    (by intro i hi
        have h0 : i = 0 := by omega
        subst h0
        decide)
    (by decide)

/-- Witness for `expiry_boundary`: at exactly the TTL the mapping still
redirects, one tick past the TTL it is expired with no analytics entry. -/
theorem expiry_boundary_witness :
    (expandURL [demoURL] [] "abcdef" (demoURL.modified + fixedTTL) demoReq false).1 =
      .redirect demoURL.longForm demoURL.redirect ∧
    expandURL [demoURL] [] "abcdef" (demoURL.modified + fixedTTL + 1) demoReq false =
      (.expired, []) :=
  ⟨(expiry_boundary [demoURL] [] "abcdef" (demoURL.modified + fixedTTL) demoReq false
      demoURL rfl (by decide)).2.1 rfl,
   (expiry_boundary [demoURL] [] "abcdef" (demoURL.modified + fixedTTL + 1) demoReq false
      demoURL rfl (by decide)).2.2 (by decide)⟩

/-- Witness for `idempotent_reuse`: user 7 shortens the same long URL twice
with no custom code; the second call reuses the record created by the first
and only refreshes its timestamp. -/
theorem idempotent_reuse_witness :
    ∃ u : URL,
      createShortURL [] demoInputNoCode 7 100 demoGen 1 = ⟨.created u, [u], [u.shortCode]⟩ ∧
      u.shortCode = demoGen 0 ∧ u.modified = 100 ∧
      createShortURL [u] demoInputNoCode 7 200 demoGen 2 =
        ⟨.reused { u with modified := 200 }, [{ u with modified := 200 }], []⟩ ∧
      ([{ u with modified := 200 }].filter
          (matchesKey demoInputNoCode.longURL (effectiveKind 7 demoInputNoCode.redirect) 7)).length = 1 :=
  idempotent_reuse [] demoInputNoCode 7 100 200 demoGen demoGen 1 2 rfl rfl rfl (by simp)

/-- Witness for `anonymous_opacity`: resolving user 7's mapping appends an
analytics entry with its id; resolving the anonymous-owned mapping leaves
the analytics store empty. -/
theorem anonymous_opacity_witness :
    expandURL [demoURL] [] "abcdef" 5 demoReq false =
      (.redirect "https://example.com" 308,
       [{ ip := "1.2.3.4", userAgent := "agent", referrer := "ref",
          timestamp := 5, urlID := 9 }]) ∧
    expandURL [demoAnonURL] [] "anonab" 5 demoReq false =
      (.redirect "https://example.com" 308, []) := by
  constructor
  · have h := anonymous_opacity [demoURL] [] "abcdef" 5 demoReq demoURL rfl
      (by decide) (by decide)
    simpa [demoURL, demoReq, anonymousUserID] using h
  · have h := anonymous_opacity [demoAnonURL] [] "anonab" 5 demoReq demoAnonURL rfl
      (by decide) (by decide)
    simpa [demoAnonURL, demoReq, anonymousUserID] using h

/-- Witness for `other_store_error_aborts`: the first candidate collides,
the second hits infrastructure error 42, and the loop aborts with that
error after exactly two attempts despite one retry remaining. -/
theorem other_store_error_aborts_witness :
    insertLoop (oracleIns demoRes) demoGen [] demoErrURL 1 3 =
      ⟨.serverError 42, [], (List.range 2).map (codeAt demoGen demoErrURL.shortCode 1)⟩ :=
  other_store_error_aborts demoRes demoGen 1 [] demoErrURL 1 1 42
    (by intro i hi
        have h0 : i = 0 := by omega
        subst h0
        decide)
    (by decide)

/-- Witness for `deletion_cascade` at a concrete mapping and analytics
store. -/
theorem deletion_cascade_witness :
    (∀ en, en ∈ (deleteShortURL [demoURL] [demoEntry] demoURL).2 → en.urlID ≠ demoURL.id) ∧
    expandURL (deleteShortURL [demoURL] [demoEntry] demoURL).1
        (deleteShortURL [demoURL] [demoEntry] demoURL).2 demoURL.shortCode 5 demoReq false =
      (.notFound, (deleteShortURL [demoURL] [demoEntry] demoURL).2) :=
  deletion_cascade [demoURL] [demoEntry] demoURL 5 demoReq false

/-- Witness for `anonymous_always_permanent`: the record created for a
request (from user 7, no hit) carries the permanent kind, and a reused
record comes from the permanent-keyed lookup. -/
theorem anonymous_always_permanent_witness :
    ({ id := 1, longForm := "https://example.com", shortCode := "cc0000", redirect := 308,
       userID := 7, created := 0, modified := 0 } : URL).redirect = statusPermanentRedirect ∧
    (∃ e, getByLongURL [demoNoCodeURL] demoInputNoCode.longURL statusPermanentRedirect
        demoInputNoCode.userID = some e ∧ demoReused = { e with modified := 9 }) :=
  ⟨(anonymous_always_permanent [] demoInputNoCode 0 demoGen 1 "x" "y").2.1
      { id := 1, longForm := "https://example.com", shortCode := "cc0000", redirect := 308,
        userID := 7, created := 0, modified := 0 } (by decide),
   (anonymous_always_permanent [demoNoCodeURL] demoInputNoCode 9 demoGen 2 "x" "y").2.2
      demoReused (by decide)⟩

/-- Witness for `empty_long_form_not_found` at a concrete record with an
empty long form. -/
theorem empty_long_form_not_found_witness :
    expandURL [demoEmptyURL] [] "emptyc" 5 demoReq false = (.notFound, []) :=
  empty_long_form_not_found [demoEmptyURL] [] "emptyc" 5 demoReq false demoEmptyURL rfl rfl

end UrlShortner
